import Mathlib

/-
  Verification of the rsyncparse package (rsyncparse.go): a line-oriented
  parser extracting rsync transfer statistics.

  Modelling conventions:
  * A line of input is a Lean `String`; the input stream is the `List String`
    of lines produced by the line scanner (`bufio.Scanner`), newline
    terminators already stripped.  I/O-level read failures of the scanner are
    environment behaviour outside this embedding.
  * The two compiled regular expressions `statsTransferRe` and `statsSizeRe`
    are anchored alternation-free patterns (literal segments interleaved with
    greedy nonempty character-class captures, where no literal segment starts
    with a character of the preceding class), so `FindStringSubmatch` is
    equivalent to deterministic maximal-munch scanning; `statsTransferRe` and
    `statsSizeRe` below implement exactly that and return the capture groups.
  * `strconv.ParseInt(s, 0, 64)` (note base 0) and
    `strconv.ParseFloat(s, 64)` are modelled by `parseIntGo` / `parseFloatGo`
    on the strings reachable from the call sites: both call sites pass a
    capture of class `[0-9,]` resp. `[0-9,.]` with all commas removed, hence
    a string over `[0-9]` resp. `[0-9.]`.  `parseFloatGo` returns the exact
    decimal value as a rational, before the rounding of `ParseFloat` to the
    nearest binary float64; that rounding step is not modelled, and every
    rate value appearing in a theorem below (3216, 3, 1) is exactly
    representable as a float64, where the rounding is the identity.
    Failure of the Go functions (non-nil error) is `none`.
  * The `int64` arithmetic of `Speedup` follows the Go specification on
    unbounded `Int` with explicit wrap-around: `goAdd64` is the
    twos-complement wrapping addition computing the divisor sum, and
    `goDiv64` truncates toward zero (`Int.tdiv`), panics (`none`) on a zero
    divisor, and wraps the single overflowing quotient `MinInt64 / -1` back
    to `MinInt64`, as the Go specification defines.
  * A Go runtime panic (here: indexing a nil submatch slice) is the distinct
    outcome `ParseResult.crash`, different from returning an error.
-/

namespace Rsyncparse

/-- Stats contains all data found in rsync output (struct `Stats`).
`BytesPerSec` is the exact rational value of the float64 field. -/
structure Stats where
  Found : Bool
  TotalWritten : Int
  TotalRead : Int
  BytesPerSec : ℚ
  TotalSize : Int
deriving DecidableEq, Repr

/-- The Go zero value `&Stats{}` that `Parse` starts from. -/
def initStats : Stats :=
  { Found := false, TotalWritten := 0, TotalRead := 0,
    BytesPerSec := 0, TotalSize := 0 }

/-- Reduction of an unbounded integer into the `int64` range
`[-2^63, 2^63)` by twos-complement wrap-around. -/
def wrap64 (x : Int) : Int :=
  (x + 2 ^ 63) % 2 ^ 64 - 2 ^ 63

/-- Go addition on `int64`: wraps around on overflow (the Go specification
defines signed overflow as twos-complement wrap-around). -/
def goAdd64 (a b : Int) : Int :=
  wrap64 (a + b)

/-- Go division on `int64`: truncates toward zero and panics (`none`) when
the divisor is zero; the single overflowing quotient `MinInt64 / -1` wraps
back to `MinInt64` (Go defines this case as wrap-around, not a panic), which
`wrap64` applied to the truncated quotient implements for all in-range
operands. -/
def goDiv64 (a b : Int) : Option Int :=
  if b = 0 then none else some (wrap64 (Int.tdiv a b))

/-- Speedup calculates the speed-up of using rsync over copying the data
as-is: `float64(p.TotalSize / (p.TotalWritten + p.TotalRead))`.  The divisor
is the wrapping `int64` sum, the integer division happens first, and the
conversion to float64 afterwards (exact for quotients below `2^53`) is not
modelled. -/
def Stats.Speedup (p : Stats) : Option Int :=
  goDiv64 p.TotalSize (goAdd64 p.TotalWritten p.TotalRead)

/-- Character class `[0-9,]` of the integer captures. -/
def isNumComma (c : Char) : Bool :=
  c.isDigit || c = ','

/-- Character class `[0-9,.]` of the rate and speedup captures. -/
def isNumCommaDot (c : Char) : Bool :=
  c.isDigit || c = ',' || c = '.'

/-- Consume an exact literal segment of a pattern; `none` if the input does
not start with it. -/
def dropLit : List Char → List Char → Option (List Char)
  | [], cs => some cs
  | _ :: _, [] => none
  | l :: ls, c :: cs => if c = l then dropLit ls cs else none

/-- Greedy nonempty capture of a character class (`[...]+`): the maximal
leading run of class characters, `none` if it is empty. -/
def capture (cls : Char → Bool) (cs : List Char) : Option (List Char × List Char) :=
  let n := cs.takeWhile cls
  if n = [] then none else some (n, cs.dropWhile cls)

/-- `strings.HasPrefix`. -/
def hasPref (s p : String) : Bool :=
  p.data.isPrefixOf s.data

/-- `statsTransferRe.FindStringSubmatch` for
`^sent ([0-9,]+) bytes  received ([0-9,]+) bytes  ([0-9,.]+) bytes/sec$`:
the three capture groups when the whole line matches, `none` otherwise
(`len(matches) == 0`). -/
def statsTransferRe (line : String) : Option (String × String × String) :=
  (dropLit "sent ".data line.data).bind (fun r1 =>
  (capture isNumComma r1).bind (fun p1 =>
  (dropLit " bytes  received ".data p1.2).bind (fun r2 =>
  (capture isNumComma r2).bind (fun p2 =>
  (dropLit " bytes  ".data p2.2).bind (fun r3 =>
  (capture isNumCommaDot r3).bind (fun p3 =>
  (dropLit " bytes/sec".data p3.2).bind (fun r4 =>
  if r4 = [] then some (String.mk p1.1, String.mk p2.1, String.mk p3.1)
  else none)))))))

/-- `statsSizeRe.FindStringSubmatch` for
`^total size is ([0-9,]+)  speedup is ([0-9,.]+)$`: the two capture groups
when the whole line matches, `none` otherwise. -/
def statsSizeRe (line : String) : Option (String × String) :=
  (dropLit "total size is ".data line.data).bind (fun r1 =>
  (capture isNumComma r1).bind (fun p1 =>
  (dropLit "  speedup is ".data p1.2).bind (fun r2 =>
  (capture isNumCommaDot r2).bind (fun p2 =>
  if p2.2 = [] then some (String.mk p1.1, String.mk p2.1) else none))))

/-- `strings.ReplaceAll(s, ",", "")`. -/
def stripCommas (s : String) : String :=
  String.mk (s.data.filter (fun c => !(c = ',')))

/-- Value of a digit list in a given base (most significant first). -/
def digitsToNat (base : Nat) (cs : List Char) : Nat :=
  cs.foldl (fun a c => a * base + (c.toNat - 48)) 0

/-- Largest `int64` value. -/
def maxInt64 : Nat := 2 ^ 63 - 1

/-- Octal digit test used by the legacy leading-zero base of
`strconv.ParseInt` with base argument 0. -/
def isOctal (c : Char) : Bool :=
  ('0' ≤ c) && (c ≤ '7')

/-- `strconv.ParseInt(s, 0, 64)` on the strings reachable from `Parse`
(strings over `[0-9]`, since the callers strip the commas out of a `[0-9,]+`
capture).  Base 0 means the base is read off the string: a leading `0`
followed by more characters selects legacy octal, otherwise decimal; the
empty string, a non-octal digit after a leading zero, or a value exceeding
`MaxInt64` produce an error (`none`).  Strings containing characters other
than ASCII digits cannot reach this function and are mapped to `none`. -/
def parseIntGo (s : String) : Option Int :=
  if s.data = [] then none
  else if !s.data.all Char.isDigit then none
  else if s.data.head? = some '0' ∧ 2 ≤ s.data.length then
    if s.data.tail.all isOctal then
      if digitsToNat 8 s.data.tail ≤ maxInt64 then
        some (digitsToNat 8 s.data.tail)
      else none
    else none
  else
    if digitsToNat 10 s.data ≤ maxInt64 then some (digitsToNat 10 s.data)
    else none

/-- Fuel-based Euclidean algorithm; agrees with `Nat.gcd` whenever the fuel
is at least the first argument.  It is structurally recursive, so unlike
`Nat.gcd` it reduces inside the kernel, which keeps the rationals built by
`ratDec` evaluable by `decide`. -/
def gcdF : Nat → Nat → Nat → Nat
  | 0, _, n => n
  | fuel+1, m, n => if m = 0 then n else gcdF fuel (n % m) m

/-- Proof that `gcdF` computes `Nat.gcd` given enough fuel (stated as a
definition of proposition type so that all plain theorems of this file come
after the definitions they are about). -/
def gcdF_gcd : ∀ fuel a b : Nat, a ≤ fuel → gcdF fuel a b = Nat.gcd a b := by
  intro fuel
  induction fuel with
  | zero =>
    intro a b ha
    have : a = 0 := Nat.le_zero.mp ha
    subst this
    simp [gcdF]
  | succ f ih =>
    intro a b ha
    by_cases hz : a = 0
    · subst hz; simp [gcdF]
    · have hlt : b % a < a := Nat.mod_lt _ (Nat.pos_of_ne_zero hz)
      have hle : b % a ≤ f := Nat.le_of_lt_succ (Nat.lt_of_lt_of_le hlt ha)
      rw [gcdF, if_neg hz, ih _ _ hle]
      exact (Nat.gcd_rec a b).symm

/-- The exact rational `m / d` (for `d > 0`) in lowest terms, built directly
as a reduced fraction. -/
def ratDec (m d : Nat) (hd : 0 < d) : ℚ :=
  let g := gcdF m m d
  Rat.mk' (Int.ofNat (m / g)) (d / g)
    (by
      have hgg : g = Nat.gcd m d := gcdF_gcd m m d (Nat.le_refl m)
      have hgpos : 0 < Nat.gcd m d := Nat.gcd_pos_of_pos_right m hd
      have hdvd : Nat.gcd m d ∣ d := Nat.gcd_dvd_right m d
      have hpos : 0 < d / Nat.gcd m d := Nat.div_pos (Nat.le_of_dvd hd hdvd) hgpos
      simp only [hgg]
      omega)
    (by
      have hgg : g = Nat.gcd m d := gcdF_gcd m m d (Nat.le_refl m)
      have hgpos : 0 < Nat.gcd m d := Nat.gcd_pos_of_pos_right m hd
      simp only [hgg, Int.natAbs_ofNat]
      exact Nat.coprime_div_gcd_div_gcd hgpos)

/-- `strconv.ParseFloat(s, 64)` on the strings reachable from `Parse`
(strings over `[0-9.]`, commas already stripped from a `[0-9,.]+` capture),
as an exact rational: an optional integer part, an optional single point,
an optional fractional part, with at least one digit overall.  A second
point, a lone point, or the empty string is an error (`none`), as are
strings with characters outside `[0-9.]`, which cannot reach this
function.  The result is the exact decimal value before the rounding of
`ParseFloat` to the nearest float64, which is not modelled; every rate
value appearing in a theorem of this file is exactly representable, so
the model and the program agree on those values. -/
def parseFloatGo (s : String) : Option ℚ :=
  if s.data = [] then none
  else if !s.data.all (fun c => c.isDigit || c = '.') then none
  else if s.data.dropWhile (fun c => !(c = '.')) = [] then
    some (ratDec (digitsToNat 10 (s.data.takeWhile (fun c => !(c = '.')))) 1 Nat.one_pos)
  else if (s.data.dropWhile (fun c => !(c = '.'))).tail.any (fun c => c = '.') then none
  else if s.data.takeWhile (fun c => !(c = '.')) = [] ∧ (s.data.dropWhile (fun c => !(c = '.'))).tail = [] then none
  else
    some (ratDec
      (digitsToNat 10
        (s.data.takeWhile (fun c => !(c = '.')) ++ (s.data.dropWhile (fun c => !(c = '.'))).tail))
      (10 ^ (s.data.dropWhile (fun c => !(c = '.'))).tail.length)
      (Nat.pos_pow_of_pos _ (by decide)))

/-- Error values `Parse` can return: the descriptive locale-hint error built
for a `sent ` line that fails `statsTransferRe`, and a propagated `strconv`
conversion error. -/
inductive ParseError where
  | formatMismatch
  | numError
deriving DecidableEq, Repr

/-- Outcome of `Parse`: a returned record, a returned error (with nil
record), or a Go runtime panic. -/
inductive ParseResult where
  | ok : Stats → ParseResult
  | err : ParseError → ParseResult
  | crash : ParseResult
deriving DecidableEq, Repr

/-- Outcome of one iteration of the scan loop. -/
inductive StepOut where
  | next : Stats → StepOut
  | fail : ParseError → StepOut
  | crash : StepOut
deriving DecidableEq, Repr

/-- Body of the scan loop of `Parse` for one line (rsyncparse.go lines
57-90): the `sent ` branch checks `len(matches) == 0` and returns the
locale-hint error, then converts the three captures, aborting on a
conversion error; the `total size is ` branch indexes `matches[1]` without
a length check, so a prefix-matching line that fails `statsSizeRe` panics
(`StepOut.crash`); any other line leaves the record untouched. -/
def stepLine (p : Stats) (line : String) : StepOut :=
  if hasPref line "sent " then
    match statsTransferRe line with
    | none => StepOut.fail ParseError.formatMismatch
    | some m =>
      match parseIntGo (stripCommas m.1) with
      | none => StepOut.fail ParseError.numError
      | some tw =>
        match parseIntGo (stripCommas m.2.1) with
        | none => StepOut.fail ParseError.numError
        | some tr =>
          match parseFloatGo (stripCommas m.2.2) with
          | none => StepOut.fail ParseError.numError
          | some bps =>
            StepOut.next { p with Found := true, TotalWritten := tw, TotalRead := tr, BytesPerSec := bps }
  else if hasPref line "total size is " then
    match statsSizeRe line with
    | none => StepOut.crash
    | some m =>
      match parseIntGo (stripCommas m.1) with
      | none => StepOut.fail ParseError.numError
      | some ts => StepOut.next { p with Found := true, TotalSize := ts }
  else StepOut.next p

/-- The scan loop of `Parse` from a given accumulated record. -/
def parseFrom : Stats → List String → ParseResult
  | p, [] => ParseResult.ok p
  | p, l :: ls =>
    match stepLine p l with
    | StepOut.next q => parseFrom q ls
    | StepOut.fail e => ParseResult.err e
    | StepOut.crash => ParseResult.crash

/-- Parse reads the scanned lines of the input stream and extracts rsync
transfer totals into a `Stats` record, starting from the zero value. -/
def Parse (lines : List String) : ParseResult :=
  parseFrom initStats lines

/-- A line matching neither recognized prefix leaves the record untouched. -/
theorem stepLine_unrec (p : Stats) (l : String)
    (h1 : hasPref l "sent " = false) (h2 : hasPref l "total size is " = false) :
    stepLine p l = StepOut.next p := by
  simp [stepLine, h1, h2]

/-- Unfolding one successful iteration of the scan loop. -/
theorem parseFrom_next (p q : Stats) (l : String) (ls : List String)
    (h : stepLine p l = StepOut.next q) :
    parseFrom p (l :: ls) = parseFrom q ls := by
  simp [parseFrom, h]

/-- A block of lines matching neither prefix is skipped by the scan loop. -/
theorem parseFrom_skip (p : Stats) (u rest : List String)
    (hu : ∀ l ∈ u, hasPref l "sent " = false ∧ hasPref l "total size is " = false) :
    parseFrom p (u ++ rest) = parseFrom p rest := by
  revert hu
  induction u with
  | nil => intro _; rfl
  | cons a us ih =>
    intro hu
    have ha := hu a (by simp)
    rw [List.cons_append, parseFrom_next p p a (us ++ rest) (stepLine_unrec p a ha.1 ha.2)]
    exact ih (fun l hl => hu l (by simp [hl]))

/-- A scan over lines matching neither prefix returns the starting record. -/
theorem parseFrom_all_unrec (p : Stats) (u : List String)
    (hu : ∀ l ∈ u, hasPref l "sent " = false ∧ hasPref l "total size is " = false) :
    parseFrom p u = ParseResult.ok p := by
  have h := parseFrom_skip p u [] hu
  rw [List.append_nil] at h
  exact h

/-- The reduced fraction built by `ratDec` is the rational quotient. -/
theorem ratDec_eq (m d : Nat) (hd : 0 < d) :
    ratDec m d hd = (m : ℚ) / (d : ℚ) := by
  have hgg : gcdF m m d = Nat.gcd m d := gcdF_gcd m m d (Nat.le_refl m)
  have hgpos : 0 < Nat.gcd m d := Nat.gcd_pos_of_pos_right m hd
  have hgne : ((Nat.gcd m d : ℚ)) ≠ 0 := Nat.cast_ne_zero.mpr hgpos.ne'
  have hdne : ((d : ℚ)) ≠ 0 := Nat.cast_ne_zero.mpr hd.ne'
  unfold ratDec
  rw [Rat.mk'_eq_divInt, Rat.divInt_eq_div]
  simp only [hgg, Int.ofNat_eq_natCast, Int.cast_natCast]
  rw [Nat.cast_div (Nat.gcd_dvd_left m d) hgne,
      Nat.cast_div (Nat.gcd_dvd_right m d) hgne]
  rw [div_div_div_cancel_right₀ hgne]

/-- C4: the single well-formed transfer line yields, without error, a record
with Found, TotalWritten 1590, TotalRead 18, BytesPerSec 3216.00 (the exact
value 3216) and TotalSize left at its zero default. -/
theorem parse_transfer_line :
    Parse ["sent 1,590 bytes  received 18 bytes  3,216.00 bytes/sec"] =
      ParseResult.ok { Found := true, TotalWritten := 1590, TotalRead := 18, BytesPerSec := 3216, TotalSize := 0 } := by
  decide

/-- C5: the single well-formed size line yields, without error, a record
with Found and TotalSize 1188046; the speedup substring 738.83 is captured
by the pattern (second conjunct) but stored in no field, all other fields
remaining at their zero defaults (first conjunct). -/
theorem parse_size_line :
    Parse ["total size is 1,188,046  speedup is 738.83"] =
      ParseResult.ok { Found := true, TotalWritten := 0, TotalRead := 0, BytesPerSec := 0, TotalSize := 1188046 }
    ∧ statsSizeRe "total size is 1,188,046  speedup is 738.83" =
      some ("1,188,046", "738.83") := by
  decide

/-- C1: a line with the `sent ` prefix that fails the full structural shape
aborts with the locale-hint format-mismatch error, but a line with the
`total size is ` prefix that fails the full shape makes the code panic
(index out of range on the nil submatch slice) instead of returning the
format-mismatch error the specification describes: the claimed behaviour
holds for only one of the two recognized prefixes. -/
theorem malformed_recognized_lines :
    Parse ["sent 1.590 bytes  received 18 bytes"] = ParseResult.err ParseError.formatMismatch
    ∧ Parse ["total size is 1.188.046  speedup is 738,83"] = ParseResult.crash := by
  decide

/-- C7: on a line with the `total size is ` prefix that fails the full
shape, Parse panics and so returns neither a result record nor an error,
contradicting the claim that every input produces exactly one of the
two. -/
theorem parse_crash_returns_nothing :
    Parse ["total size is 1,5 MB"] = ParseResult.crash
    ∧ (∀ s : Stats, Parse ["total size is 1,5 MB"] ≠ ParseResult.ok s)
    ∧ (∀ e : ParseError, Parse ["total size is 1,5 MB"] ≠ ParseResult.err e) := by
  have h : Parse ["total size is 1,5 MB"] = ParseResult.crash := by decide
  refine ⟨h, fun s hs => ?_, fun e he => ?_⟩
  · rw [h] at hs; exact ParseResult.noConfusion hs
  · rw [h] at he; exact ParseResult.noConfusion he

/-- C10: a `sent ` line whose first capture is just a comma passes the full
structural pattern (second conjunct); comma stripping leaves the empty
string (third conjunct), whose integer conversion fails (fourth conjunct),
so Parse aborts with the propagated conversion error, which is not the
format-mismatch error (last conjunct). -/
theorem parse_comma_only_capture :
    Parse ["sent , bytes  received 1 bytes  1.0 bytes/sec"] = ParseResult.err ParseError.numError
    ∧ statsTransferRe "sent , bytes  received 1 bytes  1.0 bytes/sec" = some (",", "1", "1.0")
    ∧ stripCommas "," = ""
    ∧ parseIntGo "" = none
    ∧ ParseError.numError ≠ ParseError.formatMismatch := by
  decide

/-- C6: an input all of whose lines match neither recognized prefix (the
empty input included) parses without error to the record with Found false
and every numeric field zero. -/
theorem parse_unrecognized_lines (lines : List String)
    (h : ∀ l ∈ lines, hasPref l "sent " = false ∧ hasPref l "total size is " = false) :
    Parse lines = ParseResult.ok initStats
    ∧ initStats.Found = false ∧ initStats.TotalWritten = 0
    ∧ initStats.TotalRead = 0 ∧ initStats.BytesPerSec = 0
    ∧ initStats.TotalSize = 0 :=
  ⟨parseFrom_all_unrec initStats lines h, rfl, rfl, rfl, rfl, rfl⟩

/-- Witness for C6 at a concrete unrecognized-only input. -/
theorem parse_unrecognized_lines_witness :
    Parse ["receiving incremental file list", "./", ""] = ParseResult.ok initStats :=
  (parse_unrecognized_lines ["receiving incremental file list", "./", ""] (by decide)).1

/-- Wrapping an integer already inside the `int64` range is the identity. -/
theorem wrap64_eq_self (x : Int) (h1 : -(2 ^ 63) ≤ x) (h2 : x < 2 ^ 63) :
    wrap64 x = x := by
  have e63 : (2 : Int) ^ 63 = 9223372036854775808 := by norm_num
  have e64 : (2 : Int) ^ 64 = 18446744073709551616 := by norm_num
  unfold wrap64
  rw [e63] at h1 h2 ⊢
  rw [e64]
  have h3 : (x + 9223372036854775808) % 18446744073709551616
      = x + 9223372036854775808 :=
    Int.emod_eq_of_lt (by omega) (by omega)
  omega

/-- A truncating quotient of an in-range `int64` dividend by a nonzero
divisor stays inside the `int64` range, except for the single overflowing
pair `MinInt64 / -1`. -/
theorem tdiv_in_range (a b : Int)
    (ha1 : -(2 ^ 63) ≤ a) (ha2 : a < 2 ^ 63) (hb : b ≠ 0)
    (hov : ¬(a = -(2 ^ 63) ∧ b = -1)) :
    -(2 ^ 63) ≤ a.tdiv b ∧ a.tdiv b < 2 ^ 63 := by
  have e63 : (2 : Int) ^ 63 = 9223372036854775808 := by norm_num
  have e63n : (2 : Nat) ^ 63 = 9223372036854775808 := by norm_num
  rw [e63] at ha1 ha2 hov ⊢
  have hN : (a.tdiv b).natAbs = a.natAbs / b.natAbs := Int.natAbs_tdiv a b
  have hle : a.natAbs / b.natAbs ≤ a.natAbs := Nat.div_le_self _ _
  have haN : a.natAbs ≤ 9223372036854775808 := by omega
  constructor
  · omega
  · by_contra hcon
    push_neg at hcon
    have h3 : a.natAbs = 9223372036854775808 := by omega
    have h5 : a.natAbs / b.natAbs = a.natAbs := by omega
    have h4 : b.natAbs = 1 := by
      rcases Nat.div_eq_self.mp h5 with h | h
      · omega
      · exact h
    have ha : a = -9223372036854775808 := by omega
    have hb1 : b = 1 ∨ b = -1 := by omega
    rcases hb1 with rfl | rfl
    · rw [Int.tdiv_one] at hcon
      omega
    · exact hov ⟨ha, rfl⟩

/-- C2 counterexample: at the record with TotalWritten, TotalRead and
TotalSize all MaxInt64 (reachable from Parse, since each 19-digit capture
passes the int64 range check), the `int64` divisor sum wraps to -2 and
Speedup returns -4611686018427387903, while the truncating division of
TotalSize by the unwrapped sum of the claim is 0. -/
theorem Speedup_wrap_counterexample :
    ({ Found := true, TotalWritten := 2 ^ 63 - 1, TotalRead := 2 ^ 63 - 1, BytesPerSec := 0, TotalSize := 2 ^ 63 - 1 } : Stats).Speedup
      = some (-4611686018427387903)
    ∧ Int.tdiv (2 ^ 63 - 1) ((2 ^ 63 - 1) + (2 ^ 63 - 1)) = 0
    ∧ (-4611686018427387903 : Int) ≠ 0 := by
  decide

/-- C2 amended: on every record whose TotalSize is inside the `int64`
range, whenever the wrapping `int64` sum of TotalWritten and TotalRead is
nonzero and the pair is not the single overflowing quotient (TotalSize
MinInt64 with wrapped sum -1), Speedup returns the truncating integer
division of TotalSize by that wrapped sum (the conversion to float64
happens after the division and is not modelled); at records where the sum
does not overflow — such as the record of the specification — the wrapped
sum is the plain sum. -/
theorem Speedup_int_division (s : Stats)
    (h1 : -(2 ^ 63) ≤ s.TotalSize) (h2 : s.TotalSize < 2 ^ 63)
    (h : goAdd64 s.TotalWritten s.TotalRead ≠ 0)
    (hov : ¬(s.TotalSize = -(2 ^ 63) ∧ goAdd64 s.TotalWritten s.TotalRead = -1)) :
    s.Speedup = some (Int.tdiv s.TotalSize (goAdd64 s.TotalWritten s.TotalRead)) := by
  have hr := tdiv_in_range s.TotalSize (goAdd64 s.TotalWritten s.TotalRead) h1 h2 h hov
  unfold Stats.Speedup goDiv64
  rw [if_neg h, wrap64_eq_self _ hr.1 hr.2]

/-- Witness for C2 at the record of the specification: the wrapped sum is
the plain sum 1608, the speedup is the truncated quotient 738, and 738 is
not the exact rational ratio. -/
theorem Speedup_int_division_witness :
    ({ Found := true, TotalWritten := 1590, TotalRead := 18, BytesPerSec := 0, TotalSize := 1188046 } : Stats).Speedup
      = some (Int.tdiv 1188046 (goAdd64 1590 18))
    ∧ goAdd64 1590 18 = 1590 + 18
    ∧ Int.tdiv 1188046 (1590 + 18) = 738
    ∧ (738 : Int) * (1590 + 18) ≠ 1188046 :=
  ⟨Speedup_int_division { Found := true, TotalWritten := 1590, TotalRead := 18, BytesPerSec := 0, TotalSize := 1188046 }
     (by decide) (by decide) (by decide) (by decide),
   by decide, by decide, by decide⟩

/-- C9: Speedup divides without a guard, so on every record whose written
plus read sum is zero — the wrapped `int64` divisor is then zero as well —
the division panics on a zero divisor; in particular the division is safe
only under the precondition that the sum is nonzero, and the record Parse
returns for empty input has a zero sum, on which Speedup is the
divide-by-zero panic. -/
theorem Speedup_div_by_zero (s : Stats) :
    (s.TotalWritten + s.TotalRead = 0 → s.Speedup = none)
    ∧ Parse [] = ParseResult.ok initStats
    ∧ initStats.TotalWritten + initStats.TotalRead = 0
    ∧ initStats.Speedup = none := by
  refine ⟨fun h => ?_, rfl, by decide, by decide⟩
  have hz : goAdd64 s.TotalWritten s.TotalRead = 0 := by
    unfold goAdd64
    rw [h]
    decide
  unfold Stats.Speedup
  rw [hz]
  simp [goDiv64]

/-- Witness for C9 at a record with a zero (unwrapped) sum. -/
theorem Speedup_div_by_zero_witness :
    ({ Found := true, TotalWritten := 5, TotalRead := -5, BytesPerSec := 0, TotalSize := 7 } : Stats).Speedup = none :=
  (Speedup_div_by_zero { Found := true, TotalWritten := 5, TotalRead := -5, BytesPerSec := 0, TotalSize := 7 }).1
    (by decide)

/-- C8: for any input consisting of a well-formed transfer-totals line and
a well-formed total-size line (characterized by their effect on the
accumulating record), in either order, interleaved with arbitrary blocks of
unrecognized lines, Parse returns without error the single record carrying
all five field values from both lines; the result is identical for both
orders. -/
theorem parse_combined_any_order
    (pre mid post : List String)
    (hpre : ∀ l ∈ pre, hasPref l "sent " = false ∧ hasPref l "total size is " = false)
    (hmid : ∀ l ∈ mid, hasPref l "sent " = false ∧ hasPref l "total size is " = false)
    (hpost : ∀ l ∈ post, hasPref l "sent " = false ∧ hasPref l "total size is " = false)
    (t s : String) (w r : Int) (b : ℚ) (z : Int)
    (ht : ∀ q : Stats, stepLine q t = StepOut.next { q with Found := true, TotalWritten := w, TotalRead := r, BytesPerSec := b })
    (hs : ∀ q : Stats, stepLine q s = StepOut.next { q with Found := true, TotalSize := z }) :
    Parse (pre ++ t :: (mid ++ s :: post)) =
      ParseResult.ok { Found := true, TotalWritten := w, TotalRead := r, BytesPerSec := b, TotalSize := z }
    ∧ Parse (pre ++ s :: (mid ++ t :: post)) =
      ParseResult.ok { Found := true, TotalWritten := w, TotalRead := r, BytesPerSec := b, TotalSize := z } := by
  constructor
  · show parseFrom initStats _ = _
    rw [parseFrom_skip _ _ _ hpre,
        parseFrom_next _ _ _ _ (ht initStats),
        parseFrom_skip _ _ _ hmid,
        parseFrom_next _ _ _ _ (hs _),
        parseFrom_all_unrec _ _ hpost]
  · show parseFrom initStats _ = _
    rw [parseFrom_skip _ _ _ hpre,
        parseFrom_next _ _ _ _ (hs initStats),
        parseFrom_skip _ _ _ hmid,
        parseFrom_next _ _ _ _ (ht _),
        parseFrom_all_unrec _ _ hpost]

/-- Witness for C8 at the two concrete recognized lines of the
specification, surrounded by unrecognized lines, in both orders. -/
theorem parse_combined_any_order_witness :
    Parse ["building file list", "sent 1,590 bytes  received 18 bytes  3,216.00 bytes/sec", "delta-transmission enabled", "total size is 1,188,046  speedup is 738.83", "total bytes"] =
      ParseResult.ok { Found := true, TotalWritten := 1590, TotalRead := 18, BytesPerSec := 3216, TotalSize := 1188046 }
    ∧ Parse ["building file list", "total size is 1,188,046  speedup is 738.83", "delta-transmission enabled", "sent 1,590 bytes  received 18 bytes  3,216.00 bytes/sec", "total bytes"] =
      ParseResult.ok { Found := true, TotalWritten := 1590, TotalRead := 18, BytesPerSec := 3216, TotalSize := 1188046 } :=
  parse_combined_any_order ["building file list"] ["delta-transmission enabled"] ["total bytes"]
    (by decide) (by decide) (by decide)
    "sent 1,590 bytes  received 18 bytes  3,216.00 bytes/sec"
    "total size is 1,188,046  speedup is 738.83"
    1590 18 3216 1188046 (fun q => rfl) (fun q => rfl)

/-- C3 counterexample: a captured substring with a leading zero is not
parsed in base 10: the line stores TotalWritten 8 (base-0 parsing reads
010 as octal) although the comma-stripped capture is 010, whose standard
base-10 value is 10. -/
theorem parse_leading_zero_not_base10 :
    Parse ["sent 010 bytes  received 18 bytes  3.00 bytes/sec"] =
      ParseResult.ok { Found := true, TotalWritten := 8, TotalRead := 18, BytesPerSec := 3, TotalSize := 0 }
    ∧ stripCommas "010" = "010"
    ∧ digitsToNat 10 "010".data = 10
    ∧ (8 : Int) ≠ (10 : Int) := by
  decide

/-- C3 amended: after removing every comma — wherever the commas occur,
for any count of comma-delimited digit groups — a captured integer
substring is stored as its standard base-10 value provided its
comma-stripped digits carry no leading zero (or are exactly the single
digit 0, as base-0 conversion reads a leading zero as the octal base
prefix, which the counterexample exhibits) and the value passes the int64
range check of the conversion. -/
theorem numeric_normalization_amended (m : String)
    (hdig : (stripCommas m).data.all Char.isDigit = true)
    (hne : (stripCommas m).data ≠ [])
    (hzero : (stripCommas m).data.head? = some '0' → (stripCommas m).data = ['0'])
    (hrange : digitsToNat 10 (stripCommas m).data ≤ maxInt64) :
    parseIntGo (stripCommas m) = some ((digitsToNat 10 (stripCommas m).data : Int)) := by
  have hc3 : ¬((stripCommas m).data.head? = some '0' ∧ 2 ≤ (stripCommas m).data.length) := by
    rintro ⟨h0, h2⟩
    rw [hzero h0] at h2
    simp at h2
  unfold parseIntGo
  rw [if_neg hne, hdig]
  simp only [Bool.not_true]
  rw [if_neg (by simp), if_neg hc3, if_pos hrange]

/-- Witness for C3 amended, at the concrete integer capture of the
specification: the comma-stripped capture 1,188,046 converts to its
base-10 value 1188046. -/
theorem numeric_normalization_amended_witness :
    parseIntGo (stripCommas "1,188,046") = some ((digitsToNat 10 (stripCommas "1,188,046").data : Int))
    ∧ digitsToNat 10 (stripCommas "1,188,046").data = 1188046 :=
  ⟨numeric_normalization_amended "1,188,046" (by decide) (by decide) (by decide) (by decide),
   by decide⟩

end Rsyncparse
